import Mathlib

/-!
Verification of the chunk-planning and chunk-reassembly core of
csap_node_app.py (chalkstack/csap-node).

The embedding models, from the source:

* the vchunk-planning loop of get_meta (lines 96-109): a greedy single
  pass over the requested fields, accumulating a running width sum and
  closing the current chunk whenever the sum exceeds sap_buffer_size;
* the width lookup meta.loc[field.upper(), 'LENG'] over the filtered
  metadata table (an association list from field name to LENG);
* the metadata filtering of get_meta (lines 86-95): fields with
  LENG <= 0 are dropped, and when no explicit field list is given the
  filtered table supplies the field list;
* the per-vchunk fetch-and-merge loop of read (lines 142-189),
  including the break on a missing DATA payload, the positional
  column merge data[idx] + chunkrow, and the STATUS / COUNT / DATA /
  persistence bookkeeping of the returned json.

Remote calls are abstracted as a function from a vchunk to the parsed
DATA payload (none models DATA None, the no-rows signal the code
tests).  A Python IndexError (the merge indexing past the end of the
accumulated rows) is modelled as the whole call returning none.
-/

namespace CsapNodeApp

/-- Models Python str.upper for the field names (ASCII field names, as
in the SAP data dictionary); character-wise uppercasing. -/
def upper (s : String) : String := String.mk (s.data.map Char.toUpper)

/-- Width lookup meta.loc[key, 'LENG']: first matching row of the
metadata association list; none models the KeyError on a missing
field. -/
def lookupWidth (catalog : List (String × Int)) (key : String) : Option Int :=
  (catalog.find? (fun p => p.1 == key)).map (fun p => p.2)

/-- The vchunk loop of get_meta (lines 96-109), with the running state
(chunksum, chunk, vchunks) made explicit.  Faithful to the source:
on overflow the closed chunk is appended without an emptiness check,
chunksum is reset to 0 (not to the width of the field that overflowed),
and the trailing chunk is appended only if non-empty.  Returns none
when a width lookup fails (KeyError). -/
def vchunkLoop (catalog : List (String × Int)) (budget : Int) :
    List String → Int → List String → List (List String) →
    Option (List (List String))
  | [], _, chunk, vchunks =>
      some (if chunk.isEmpty then vchunks else vchunks ++ [chunk])
  | field :: rest, chunksum, chunk, vchunks =>
      match lookupWidth catalog (upper field) with
      | none => none
      | some length =>
          if chunksum + length > budget then
            vchunkLoop catalog budget rest 0 [field] (vchunks ++ [chunk])
          else
            vchunkLoop catalog budget rest (chunksum + length)
              (chunk ++ [field]) vchunks

/-- The chunk planner: the vchunk loop started from an empty chunk and
a zero running sum, as in get_meta. -/
def planVchunks (catalog : List (String × Int)) (budget : Int)
    (fields : List String) : Option (List (List String)) :=
  vchunkLoop catalog budget fields 0 [] []

/-- get_meta after the remote metadata fetch (lines 86-114): filter out
fields with LENG <= 0, take the field list from the filtered table when
none is supplied, and plan the vchunks.  Returns the filtered table
(the content behind meta_csv) together with the vchunks. -/
def get_meta (records : List (String × Int)) (fields : Option (List String))
    (sap_buffer_size : Int) :
    Option (List (String × Int) × List (List String)) :=
  let meta := records.filter (fun p => p.2 > 0)
  let flds := match fields with
    | none => meta.map (fun p => p.1)
    | some fs => fs
  match planVchunks meta sap_buffer_size flds with
  | none => none
  | some vchunks => some (meta, vchunks)

/-- Summed width of a chunk under the catalog (observation function for
stating budget properties; missing fields count 0). -/
def chunkWidth (catalog : List (String × Int)) (chunk : List String) : Int :=
  (chunk.map (fun f => (lookupWidth catalog (upper f)).getD 0)).sum

/-- The column merge of read (lines 166-167):
data = [data[idx] + chunkrow for idx, chunkrow in enumerate(chunk)].
Iterates over the new chunk's rows; indexing data past its end raises
IndexError, modelled as none.  Otherwise row idx of the result is
data[idx] ++ chunk[idx], and the result has chunk.length rows (silent
truncation when the new chunk has fewer rows than data). -/
def mergeRows (data chunk : List (List String)) :
    Option (List (List String)) :=
  if chunk.length > data.length then none
  else some (List.zipWith (fun a b => a ++ b) data chunk)

/-- The per-vchunk loop of read (lines 147-168).  The state is the
(data, fields) pair, none before the first successful fetch.  A fetch
whose DATA is none breaks out of the loop keeping the current state;
the outer none models an uncaught IndexError in the merge. -/
def readLoop (fetch : List String → Option (List (List String))) :
    List (List String) → Option (List (List String) × List String) →
    Option (Option (List (List String) × List String))
  | [], st => some st
  | vchunk :: rest, st =>
      match fetch vchunk with
      | none => some st
      | some chunk =>
          match st with
          | none => readLoop fetch rest (some (chunk, vchunk))
          | some (data, fields) =>
              match mergeRows data chunk with
              | none => none
              | some data2 => readLoop fetch rest (some (data2, fields ++ vchunk))

/-- Row count of the final state: len(df), 0 when no data was fetched. -/
def stCount : Option (List (List String) × List String) → Nat
  | none => 0
  | some (d, _) => d.length

/-- The (data, fields) content of the final dataframe; an empty frame
when no data was fetched. -/
def stData : Option (List (List String) × List String) →
    List (List String) × List String
  | none => ([], [])
  | some p => p

/-- The json returned by read: STATUS, TIMESTAMP, COUNT, the optional
DATA payload, and whether df.to_sql ran. -/
structure ReadResult where
  status : String
  timestamp : String
  count : Nat
  data : Option (List (List String) × List String)
  persisted : Bool
deriving DecidableEq

/-- read (lines 126-189) after abstracting the remote calls into fetch
and the wall clock into timestamp.  STATUS starts 'FAIL'; it becomes
'OK' when a sink connection string is present (df.to_sql runs) or when
keep is set (DATA is returned inline).  none models an uncaught
exception (IndexError in the merge). -/
def read (fetch : List String → Option (List (List String)))
    (vchunks : List (List String)) (sqlalchemy_cnxnstr : Option String)
    (keep : Bool) (timestamp : String) : Option ReadResult :=
  match readLoop fetch vchunks none with
  | none => none
  | some st =>
      some { status := if sqlalchemy_cnxnstr.isSome || keep then "OK" else "FAIL"
             timestamp := timestamp
             count := stCount st
             data := if keep then some (stData st) else none
             persisted := sqlalchemy_cnxnstr.isSome }

/-- Row i of the assembled window as the spec describes it: the
concatenation, in vchunk order, of row i of each vchunk's fetched
partial rows. -/
def rowConcat (fetch : List String → Option (List (List String))) :
    List (List String) → Nat → List String
  | [], _ => []
  | v :: rest, i => (((fetch v).getD []).getD i []) ++ rowConcat fetch rest i

/-- Catalog A:100, B:100, C:100 used to exhibit an over-budget
multi-field chunk. -/
def wcatBBB : List (String × Int) := [("A", 100), ("B", 100), ("C", 100)]

/-- Catalog A:100, C:500, D:30 used to exhibit an over-budget field
that is not placed alone. -/
def wcatCD : List (String × Int) := [("A", 100), ("C", 500), ("D", 30)]

/-- Catalog of the spec's worked example A:100, B:50, C:500, D:30. -/
def wcatABCD : List (String × Int) :=
  [("A", 100), ("B", 50), ("C", 500), ("D", 30)]

/-- Fetch behaviour with mismatched row counts: vchunk [A] returns two
rows, vchunk [B] only one. -/
def fetchT : List String → Option (List (List String)) :=
  fun v =>
    if v = ["A"] then some [["a0"], ["a1"]]
    else if v = ["B"] then some [["b0"]] else none

/-- Fetch behaviour whose DATA payload is always missing (DATA None). -/
def fetchNone : List String → Option (List (List String)) :=
  fun _ => none

/-- Fetch behaviour returning two rows for each of the vchunks [A] and
[B]. -/
def fetchTwo : List String → Option (List (List String)) :=
  fun v =>
    if v = ["A"] then some [["a0"], ["a1"]]
    else if v = ["B"] then some [["b0"], ["b1"]] else none

/-- Fetch behaviour returning two rows for vchunk [A] and no DATA for
anything else. -/
def fetchOne : List String → Option (List (List String)) :=
  fun v => if v = ["A"] then some [["a0"], ["a1"]] else none

theorem vchunkLoop_flatten (catalog : List (String × Int)) (budget : Int) :
    ∀ (fields : List String) (chunksum : Int) (chunk : List String)
      (acc vs : List (List String)),
      vchunkLoop catalog budget fields chunksum chunk acc = some vs →
      vs.flatten = acc.flatten ++ chunk ++ fields := by
  intro fields
  induction fields with
  | nil =>
      intro chunksum chunk acc vs h
      by_cases hc : chunk.isEmpty
      · simp [vchunkLoop, hc] at h
        subst h
        simp [List.isEmpty_iff.mp hc]
      · simp [vchunkLoop, hc] at h
        subst h
        simp
  | cons f rest ih =>
      intro chunksum chunk acc vs h
      rw [vchunkLoop] at h
      cases hw : lookupWidth catalog (upper f) with
      | none => simp [hw] at h
      | some length =>
          simp only [hw] at h
          by_cases hb : chunksum + length > budget
          · rw [if_pos hb] at h
            have := ih 0 [f] (acc ++ [chunk]) vs h
            simp at this
            simp [this]
          · rw [if_neg hb] at h
            have := ih (chunksum + length) (chunk ++ [f]) acc vs h
            simp at this
            simp [this]

/-- C1: for every field list and budget on which the planner succeeds,
concatenating the produced vchunks, in vchunk order then intra-chunk
order, reproduces the input field list exactly (same fields, same
order, hence no duplicates and no omissions beyond those of the
input). -/
theorem plan_flatten_eq_fields (catalog : List (String × Int)) (budget : Int)
    (fields : List String) (vs : List (List String))
    (h : planVchunks catalog budget fields = some vs) :
    vs.flatten = fields := by
  have := vchunkLoop_flatten catalog budget fields 0 [] [] vs h
  simpa using this

theorem plan_flatten_eq_fields_witness :
    planVchunks [("A", 2), ("B", 3)] 4 ["A", "B"] = some [["A"], ["B"]] ∧
      List.flatten [["A"], ["B"]] = ["A", "B"] :=
  ⟨by decide, plan_flatten_eq_fields [("A", 2), ("B", 3)] 4 ["A", "B"]
    [["A"], ["B"]] (by decide)⟩

/-- C2: refuted on the code.  With budget 150 and three fields of
width 100, the planner emits the chunk [B, C] of summed width 200 >
150, which is not a singleton and contains no field that alone exceeds
the budget: the running sum is reset to 0 when a chunk is closed, so
the width of a chunk's first field is never counted against the
budget. -/
theorem plan_overbudget_chunk_example :
    planVchunks wcatBBB 150 ["A", "B", "C"] = some [["A"], ["B", "C"]] ∧
      chunkWidth wcatBBB ["B", "C"] > 150 ∧
      (["B", "C"] : List String).length ≠ 1 ∧
      ∀ f ∈ (["B", "C"] : List String),
        (lookupWidth wcatBBB (upper f)).getD 0 ≤ 150 := by decide

/-- C3: refuted on the code.  Field C of width 500 > budget 150 is
placed in the chunk [C, D] together with D: after closing a chunk the
running sum restarts at 0, so later fields are packed on top of the
over-budget field. -/
theorem plan_overwide_field_not_alone_example :
    planVchunks wcatCD 150 ["A", "C", "D"] = some [["A"], ["C", "D"]] ∧
      (lookupWidth wcatCD "C").getD 0 > 150 ∧
      ["C", "D"] ∈ [["A"], ["C", "D"]] ∧
      (["C", "D"] : List String) ≠ ["C"] := by decide

/-- C4: refuted on the code.  On the spec's own example the planner
returns [[A, B], [C, D]], not the [[A, B], [C], [D]] the claim
states. -/
theorem plan_spec_example_mismatch :
    planVchunks wcatABCD 150 ["A", "B", "C", "D"] =
        some [["A", "B"], ["C", "D"]] ∧
      ([["A", "B"], ["C", "D"]] : List (List String)) ≠
        [["A", "B"], ["C"], ["D"]] := by decide

/-- C5: refuted on the code.  When the first field's width already
exceeds the budget, the initial empty chunk is closed and appended
without an emptiness check, so the output starts with an empty
vchunk. -/
theorem plan_empty_chunk_example :
    planVchunks [("C", 500)] 150 ["C"] = some [[], ["C"]] ∧
      ([] : List String) ∈ [([] : List String), ["C"]] := by decide

/-- C9 counterexample: when every metadata record has width 0, get_meta
returns a normal result (empty catalog, empty vchunk list) instead of
failing; there is no EmptyCatalog error in the code. -/
theorem get_meta_all_filtered_returns_normally :
    get_meta [("A", 0)] none 400 = some ([], []) := by decide

/-- C9 amended: get_meta removes every field with width <= 0 before
exposure, and when no field remains after filtering (with no explicit
field list) it returns a normal result with an empty catalog and an
empty vchunk list rather than failing. -/
theorem get_meta_filters_nonpositive_widths (records : List (String × Int))
    (b : Int) (meta : List (String × Int)) (vs : List (List String))
    (h : get_meta records none b = some (meta, vs)) :
    (∀ p ∈ meta, 0 < p.2) ∧
      (records.filter (fun p => p.2 > 0) = [] → meta = [] ∧ vs = []) := by
  unfold get_meta at h
  dsimp only at h
  split at h
  · simp at h
  · next vchunks heq =>
      simp only [Option.some.injEq, Prod.mk.injEq] at h
      obtain ⟨h1, h2⟩ := h
      subst h1 h2
      constructor
      · intro p hp
        have := List.of_mem_filter hp
        simpa using this
      · intro hr
        refine ⟨hr, ?_⟩
        rw [hr] at heq
        simp only [List.map_nil] at heq
        have hplan : planVchunks [] b [] = some [] := rfl
        rw [hplan] at heq
        injection heq with h3
        exact h3.symm

theorem get_meta_filters_nonpositive_widths_witness :
    get_meta [("A", 5), ("B", 0)] none 400 = some ([("A", 5)], [["A"]]) ∧
      ((∀ p ∈ [("A", (5 : Int))], 0 < p.2) ∧
        ([("A", (5 : Int)), ("B", 0)].filter (fun p => p.2 > 0) = [] →
          [("A", (5 : Int))] = [] ∧ [["A"]] = ([] : List (List String)))) :=
  ⟨by decide,
    get_meta_filters_nonpositive_widths [("A", 5), ("B", 0)] 400
      [("A", 5)] [["A"]] (by decide)⟩

/-- C6: refuted on the code.  When vchunk [A] returns two rows and
vchunk [B] one row, read silently truncates the window to one row and
returns a dataset with STATUS OK — no RowCountMismatch (nor any other)
error.  In the opposite direction ([B] then [A]) the merge indexes past
the end of the accumulated rows, an uncaught IndexError rather than a
controlled error. -/
theorem read_silent_truncation_example :
    read fetchT [["A"], ["B"]] (some "db") false "t" =
        some { status := "OK", timestamp := "t", count := 1,
               data := none, persisted := true } ∧
      read fetchT [["B"], ["A"]] (some "db") false "t" = none := by decide

/-- C8: when the first vchunk's fetch reports no data, read returns a
zero-row result with STATUS OK (for any sink connection string, e.g.
the default): the loop breaks before fetching any other vchunk (the
result does not depend on the remaining vchunks or on the fetch
behaviour beyond the first vchunk), COUNT is 0, and no exception is
raised. -/
theorem read_first_vchunk_empty_ok
    (fetch : List String → Option (List (List String))) (v : List String)
    (rest : List (List String)) (s : String) (keep : Bool) (ts : String)
    (h : fetch v = none) :
    read fetch (v :: rest) (some s) keep ts =
      some { status := "OK", timestamp := ts, count := 0,
             data := if keep then some ([], []) else none,
             persisted := true } := by
  unfold read readLoop
  rw [h]
  simp [stCount, stData]

theorem read_first_vchunk_empty_ok_witness :
    fetchNone ["A"] = none ∧
      read fetchNone [["A"], ["B"]] (some "db") false "t" =
        some { status := "OK", timestamp := "t", count := 0,
               data := none, persisted := true } :=
  ⟨rfl, by
    have := read_first_vchunk_empty_ok fetchNone ["A"] [["B"]] "db" false "t" rfl
    simpa using this⟩

/-- C10: when read is called with no sink connection string and keep
false, and fetching and assembly complete without an exception, the
returned STATUS is FAIL even so; the result carries the assembled row
count and the timestamp, no DATA payload is returned, and nothing is
persisted. -/
theorem read_no_sink_no_keep_status_fail
    (fetch : List String → Option (List (List String)))
    (vchunks : List (List String)) (ts : String)
    (st : Option (List (List String) × List String))
    (h : readLoop fetch vchunks none = some st) :
    read fetch vchunks none false ts =
      some { status := "FAIL", timestamp := ts, count := stCount st,
             data := none, persisted := false } := by
  unfold read
  rw [h]
  simp

theorem read_no_sink_no_keep_status_fail_witness :
    readLoop fetchOne [["A"]] none = some (some ([["a0"], ["a1"]], ["A"])) ∧
      read fetchOne [["A"]] none false "t" =
        some { status := "FAIL", timestamp := "t", count := 2,
               data := none, persisted := false } :=
  ⟨by decide, by
    have := read_no_sink_no_keep_status_fail fetchOne [["A"]] "t"
      (some ([["a0"], ["a1"]], ["A"])) (by decide)
    simpa [stCount] using this⟩

theorem readLoop_assemble (fetch : List String → Option (List (List String)))
    (n : Nat) :
    ∀ (rest : List (List String)) (data : List (List String))
      (fields : List String),
      (∀ v ∈ rest, ∃ rows, fetch v = some rows ∧ rows.length = n) →
      data.length = n →
      ∃ data2,
        readLoop fetch rest (some (data, fields)) =
            some (some (data2, fields ++ rest.flatten)) ∧
          data2.length = n ∧
          ∀ i, i < n →
            data2.getD i [] = data.getD i [] ++ rowConcat fetch rest i := by
  intro rest
  induction rest with
  | nil =>
      intro data fields _ hlen
      exact ⟨data, by simp [readLoop], hlen, fun i _ => by simp [rowConcat]⟩
  | cons v rest ih =>
      intro data fields hall hlen
      obtain ⟨rows, hv, hrows⟩ := hall v (by simp)
      have hmerge : mergeRows data rows =
          some (List.zipWith (fun a b => a ++ b) data rows) := by
        unfold mergeRows
        rw [if_neg (by omega)]
      have hlen2 : (List.zipWith (fun a b => a ++ b) data rows).length = n := by
        simp [hlen, hrows]
      obtain ⟨data2, heq, hlen3, hrow⟩ :=
        ih (List.zipWith (fun a b => a ++ b) data rows) (fields ++ v)
          (fun u hu => hall u (by simp [hu])) hlen2
      refine ⟨data2, ?_, hlen3, ?_⟩
      · simp only [readLoop, hv, hmerge]
        rw [heq]
        simp
      · intro i hi
        have h1 := hrow i hi
        have hz : (List.zipWith (fun a b => a ++ b) data rows).getD i [] =
            data.getD i [] ++ rows.getD i [] := by
          rw [List.getD_eq_getElem _ _ (by simp [hlen, hrows]; omega),
              List.getD_eq_getElem _ _ (by omega : i < data.length),
              List.getD_eq_getElem _ _ (by omega : i < rows.length),
              List.getElem_zipWith]
        rw [h1, hz, rowConcat]
        simp [hv, List.append_assoc]

/-- C7: when every vchunk's fetch for the window returns rows and all
row counts agree, the assembled state holds the concatenation of the
vchunks' field lists in vchunk order, and each row i is the
concatenation of the row-i cells of the vchunks' results in vchunk
order. -/
theorem read_assembles_rows_in_order
    (fetch : List String → Option (List (List String)))
    (vchunks : List (List String)) (n : Nat) (hne : vchunks ≠ [])
    (hall : ∀ v ∈ vchunks, ∃ rows, fetch v = some rows ∧ rows.length = n) :
    ∃ data,
      readLoop fetch vchunks none = some (some (data, vchunks.flatten)) ∧
        data.length = n ∧
        ∀ i, i < n → data.getD i [] = rowConcat fetch vchunks i := by
  cases vchunks with
  | nil => exact absurd rfl hne
  | cons v rest =>
      obtain ⟨rows, hv, hrows⟩ := hall v (by simp)
      obtain ⟨data2, heq, hlen, hrow⟩ :=
        readLoop_assemble fetch n rest rows v
          (fun u hu => hall u (by simp [hu])) hrows
      refine ⟨data2, ?_, hlen, ?_⟩
      · simp only [readLoop, hv]
        rw [heq]
        simp
      · intro i hi
        rw [hrow i hi, rowConcat]
        simp [hv]

theorem read_assembles_rows_in_order_witness :
    ∃ data,
      readLoop fetchTwo [["A"], ["B"]] none =
          some (some (data, List.flatten [["A"], ["B"]])) ∧
        data.length = 2 ∧
        ∀ i, i < 2 → data.getD i [] = rowConcat fetchTwo [["A"], ["B"]] i :=
  read_assembles_rows_in_order fetchTwo [["A"], ["B"]] 2 (by decide)
    (by
      intro v hv
      fin_cases hv
      · exact ⟨[["a0"], ["a1"]], by decide, by decide⟩
      · exact ⟨[["b0"], ["b1"]], by decide, by decide⟩)

end CsapNodeApp
